import Mathlib

/-!
Verification of the pyjs9 client library (`pyjs9/__init__.py`).

The development shallowly embeds the request/response transport and the
image-array codec of the library.  Machine-level pixel values are
represented by their bit patterns as `Nat` (so equality of pixels is
representational equality, which coincides with numeric equality for the
integer element types).  Byte strings are `List Nat` (each element < 256),
and text is `String` / `List Char`.
-/

/- ------------------------------------------------------------------ -/
/- Generic list / string utilities used by the embedding               -/
/- ------------------------------------------------------------------ -/

/-- Python substring containment, `needle in hay` on strings. -/
def containsSub (needle : List Char) : List Char → Bool
  | [] => needle.isEmpty
  | c :: rest => needle.isPrefixOf (c :: rest) || containsSub needle rest

/-- Whitespace characters removed by Python `str.strip()` (ASCII range). -/
def pyWhitespace : List Char := [' ', '\t', '\n', '\r', '\x0b', '\x0c']

/-- Python `str.strip()`: drop leading and trailing whitespace. -/
def pyStrip (s : String) : String :=
  String.mk
    (((s.toList.dropWhile (pyWhitespace.contains ·)).reverse.dropWhile
        (pyWhitespace.contains ·)).reverse)

/-- First index of character `c` in a list, if any. -/
def pyFindIdx (c : Char) : List Char → Option Nat
  | [] => none
  | d :: rest => if d = c then some 0 else (pyFindIdx c rest).map (· + 1)

/-- Python `str.find` for a single-character needle: first index or -1. -/
def pyFind (c : Char) (s : List Char) : Int :=
  match pyFindIdx c s with
  | some i => (i : Int)
  | none => -1

/-- Python `str.rfind` for a single-character needle: last index or -1. -/
def pyRfind (c : Char) (s : List Char) : Int :=
  match pyFindIdx c s.reverse with
  | some i => ((s.length - 1 - i : Nat) : Int)
  | none => -1

/-- Split a list into consecutive chunks of `w` elements (fuel-driven so
that it is structurally recursive; the fuel is the list length). -/
def chunkGo (w : Nat) : Nat → List α → List (List α)
  | _, [] => []
  | 0, _ :: _ => []
  | fuel + 1, a :: rest =>
      (a :: rest.take (w - 1)) :: chunkGo w fuel (rest.drop (w - 1))

/-- Split a list into consecutive chunks of `w` elements (row-major
reshape of a flat buffer into rows of width `w`). -/
def chunkList (w : Nat) (l : List α) : List (List α) := chunkGo w l.length l

theorem chunkGo_congr (w : Nat) :
    ∀ (fuel1 fuel2 : Nat) (l : List α), l.length ≤ fuel1 → l.length ≤ fuel2 →
      chunkGo w fuel1 l = chunkGo w fuel2 l := by
  intro fuel1
  induction fuel1 with
  | zero =>
    intro fuel2 l h1 _
    have hl : l = [] := List.eq_nil_of_length_eq_zero (by omega)
    subst hl
    cases fuel2 <;> rfl
  | succ f1 ih =>
    intro fuel2 l h1 h2
    cases l with
    | nil => cases fuel2 <;> rfl
    | cons a rest =>
      cases fuel2 with
      | zero => simp at h2
      | succ f2 =>
        simp only [chunkGo]
        congr 1
        apply ih
        · have hd := List.length_drop (w - 1) rest
          simp only [List.length_cons] at h1
          omega
        · have hd := List.length_drop (w - 1) rest
          simp only [List.length_cons] at h2
          omega

theorem chunkList_append (w : Nat) (hw : 0 < w) (xs ys : List α)
    (hxs : xs.length = w) : chunkList w (xs ++ ys) = xs :: chunkList w ys := by
  cases xs with
  | nil => simp at hxs; omega
  | cons a t =>
    have ht : t.length = w - 1 := by simp at hxs; omega
    simp only [chunkList, List.cons_append, List.length_cons,
      List.length_append]
    simp only [chunkGo]
    rw [← ht]
    rw [List.take_left, List.drop_left]
    congr 1
    apply chunkGo_congr
    · omega
    · omega

theorem chunkList_flatten (w : Nat) (hw : 0 < w) :
    ∀ rows : List (List α), (∀ r ∈ rows, r.length = w) →
      chunkList w rows.flatten = rows := by
  intro rows
  induction rows with
  | nil => intro _; rfl
  | cons r rest ih =>
    intro hlen
    rw [List.flatten_cons,
      chunkList_append w hw r rest.flatten (hlen r (by simp))]
    rw [ih (fun r' hr' => hlen r' (by simp [hr']))]

theorem flatten_length_rect (w : Nat) :
    ∀ rows : List (List α), (∀ r ∈ rows, r.length = w) →
      rows.flatten.length = rows.length * w := by
  intro rows
  induction rows with
  | nil => intro _; simp
  | cons r rest ih =>
    intro hlen
    simp only [List.flatten_cons, List.length_append, List.length_cons]
    rw [hlen r (by simp), ih (fun r' hr' => hlen r' (by simp [hr']))]
    ring

/- ------------------------------------------------------------------ -/
/- Little-endian byte packing (numpy `tostring` / `frombuffer`)        -/
/- ------------------------------------------------------------------ -/

/-- The `k` little-endian bytes of the bit pattern `v`. -/
def leBytes : Nat → Nat → List Nat
  | 0, _ => []
  | k + 1, v => v % 256 :: leBytes k (v / 256)

/-- Reassemble a little-endian byte list into a bit pattern. -/
def leVal : List Nat → Nat
  | [] => 0
  | b :: rest => b + 256 * leVal rest

theorem leBytes_length (k v : Nat) : (leBytes k v).length = k := by
  induction k generalizing v with
  | zero => rfl
  | succ k ih => simp [leBytes, ih]

theorem leBytes_lt (k v : Nat) : ∀ b ∈ leBytes k v, b < 256 := by
  induction k generalizing v with
  | zero => intro b hb; simp [leBytes] at hb
  | succ k ih =>
    intro b hb
    simp only [leBytes, List.mem_cons] at hb
    rcases hb with rfl | hb
    · omega
    · exact ih (v / 256) b hb

theorem leVal_leBytes (k v : Nat) (h : v < 256 ^ k) :
    leVal (leBytes k v) = v := by
  induction k generalizing v with
  | zero =>
    simp [pow_zero] at h
    simp [leBytes, leVal, h]
  | succ k ih =>
    simp only [leBytes, leVal]
    have hpow : (256 : Nat) ^ (k + 1) = 256 ^ k * 256 := by ring
    rw [hpow] at h
    rw [ih (v / 256) ((Nat.div_lt_iff_lt_mul (by omega)).mpr h)]
    omega

/-- Serialize a flat pixel list into its little-endian byte buffer,
`w` bytes per pixel (numpy `tostring` on a C-contiguous array). -/
def bytesOfPixels (w : Nat) (ps : List Nat) : List Nat :=
  (ps.map (leBytes w)).flatten

/-- Reinterpret a byte buffer as pixels of `w` bytes each
(numpy `frombuffer`). -/
def pixelsOfBytes (w : Nat) (bs : List Nat) : List Nat :=
  (chunkList w bs).map leVal

theorem bytesOfPixels_length (w : Nat) (ps : List Nat) :
    (bytesOfPixels w ps).length = w * ps.length := by
  induction ps with
  | nil => simp [bytesOfPixels]
  | cons p rest ih =>
    simp only [bytesOfPixels, List.map_cons, List.flatten_cons,
      List.length_append, List.length_cons] at *
    rw [leBytes_length, ih]
    ring

theorem bytesOfPixels_lt (w : Nat) (ps : List Nat) :
    ∀ b ∈ bytesOfPixels w ps, b < 256 := by
  intro b hb
  simp only [bytesOfPixels, List.mem_flatten, List.mem_map] at hb
  obtain ⟨l, ⟨p, _, rfl⟩, hbl⟩ := hb
  exact leBytes_lt w p b hbl

theorem pixelsOfBytes_bytesOfPixels (w : Nat) (hw : 0 < w) (ps : List Nat)
    (h : ∀ p ∈ ps, p < 256 ^ w) :
    pixelsOfBytes w (bytesOfPixels w ps) = ps := by
  unfold pixelsOfBytes bytesOfPixels
  rw [chunkList_flatten w hw (ps.map (leBytes w))
    (by intro r hr
        simp only [List.mem_map] at hr
        obtain ⟨p, _, rfl⟩ := hr
        exact leBytes_length w p)]
  rw [List.map_map]
  have : ∀ p ∈ ps, (leVal ∘ leBytes w) p = p := by
    intro p hp
    exact leVal_leBytes w p (h p hp)
  calc ps.map (leVal ∘ leBytes w) = ps.map id := List.map_congr_left this
    _ = ps := List.map_id ps

/- ------------------------------------------------------------------ -/
/- Base64 (Python `base64.b64encode` / `base64.decodebytes`)           -/
/- ------------------------------------------------------------------ -/

/-- The standard base64 alphabet. -/
def b64alphabet : List Char :=
  "ABCDEFGHIJKLMNOPQRSTUVWXYZabcdefghijklmnopqrstuvwxyz0123456789+/".toList

/-- Character for a 6-bit group. -/
def sextetChar (n : Nat) : Char := b64alphabet.getD n 'A'

/-- 6-bit group for an alphabet character, if it is one. -/
def charSextet (c : Char) : Option Nat := pyFindIdx c b64alphabet

/-- Python `base64.b64encode` on a byte list, producing the padded
character string. -/
def b64encode : List Nat → List Char
  | a :: b :: c :: rest =>
      sextetChar (a / 4) :: sextetChar (a % 4 * 16 + b / 16) ::
      sextetChar (b % 16 * 4 + c / 64) :: sextetChar (c % 64) ::
      b64encode rest
  | [a, b] =>
      [sextetChar (a / 4), sextetChar (a % 4 * 16 + b / 16),
       sextetChar (b % 16 * 4), '=']
  | [a] => [sextetChar (a / 4), sextetChar (a % 4 * 16), '=', '=']
  | [] => []

/-- Python `base64.decodebytes` on well-formed base64 text: consume
four characters at a time, honouring `=` padding. -/
def b64decode : List Char → List Nat
  | x :: y :: z :: w :: rest =>
      match charSextet x, charSextet y with
      | some sx, some sy =>
          if z = '=' then [sx * 4 + sy / 16]
          else
            match charSextet z with
            | some sz =>
                if w = '=' then [sx * 4 + sy / 16, sy % 16 * 16 + sz / 4]
                else
                  match charSextet w with
                  | some sw =>
                      (sx * 4 + sy / 16) :: (sy % 16 * 16 + sz / 4) ::
                      (sz % 4 * 64 + sw) :: b64decode rest
                  | none => []
            | none => []
      | _, _ => []
  | _ => []

theorem charSextet_sextetChar : ∀ n < 64, charSextet (sextetChar n) = some n := by
  decide

theorem sextetChar_ne_pad : ∀ n < 64, sextetChar n ≠ '=' := by
  decide

theorem addMulDiv (x y k : Nat) (hk : 0 < k) (hy : y < k) :
    (x * k + y) / k = x := by
  rw [Nat.add_comm, Nat.add_mul_div_right y x hk, Nat.div_eq_of_lt hy,
    Nat.zero_add]

theorem addMulMod (x y k : Nat) (hy : y < k) : (x * k + y) % k = y := by
  rw [Nat.add_comm, Nat.add_mul_mod_self_right, Nat.mod_eq_of_lt hy]

theorem b64decode_b64encode :
    ∀ bs : List Nat, (∀ b ∈ bs, b < 256) → b64decode (b64encode bs) = bs := by
  intro bs
  induction bs using b64encode.induct with
  | case1 a b c rest ih =>
    intro h
    have ha : a < 256 := h a (by simp)
    have hb : b < 256 := h b (by simp)
    have hc : c < 256 := h c (by simp)
    have h1 : a / 4 < 64 := by omega
    have h2 : a % 4 * 16 + b / 16 < 64 := by omega
    have h3 : b % 16 * 4 + c / 64 < 64 := by omega
    have h4 : c % 64 < 64 := by omega
    simp only [b64encode, b64decode,
      charSextet_sextetChar _ h1, charSextet_sextetChar _ h2,
      charSextet_sextetChar _ h3, charSextet_sextetChar _ h4,
      if_neg (sextetChar_ne_pad _ h3), if_neg (sextetChar_ne_pad _ h4)]
    rw [ih (fun b' hb' => h b' (by simp [hb']))]
    have e1 : a / 4 * 4 + (a % 4 * 16 + b / 16) / 16 = a := by
      rw [addMulDiv (a % 4) (b / 16) 16 (by norm_num) (by omega)]
      omega
    have e2 : (a % 4 * 16 + b / 16) % 16 * 16 + (b % 16 * 4 + c / 64) / 4 = b := by
      rw [addMulMod (a % 4) (b / 16) 16 (by omega),
        addMulDiv (b % 16) (c / 64) 4 (by norm_num) (by omega)]
      omega
    have e3 : (b % 16 * 4 + c / 64) % 4 * 64 + c % 64 = c := by
      rw [addMulMod (b % 16) (c / 64) 4 (by omega)]
      omega
    rw [e1, e2, e3]
  | case2 a b =>
    intro h
    have ha : a < 256 := h a (by simp)
    have hb : b < 256 := h b (by simp)
    have h1 : a / 4 < 64 := by omega
    have h2 : a % 4 * 16 + b / 16 < 64 := by omega
    have h3 : b % 16 * 4 < 64 := by omega
    simp only [b64encode, b64decode,
      charSextet_sextetChar _ h1, charSextet_sextetChar _ h2,
      charSextet_sextetChar _ h3,
      if_neg (sextetChar_ne_pad _ h3), if_pos rfl]
    have e1 : a / 4 * 4 + (a % 4 * 16 + b / 16) / 16 = a := by
      rw [addMulDiv (a % 4) (b / 16) 16 (by norm_num) (by omega)]
      omega
    have e2 : (a % 4 * 16 + b / 16) % 16 * 16 + b % 16 * 4 / 4 = b := by
      rw [addMulMod (a % 4) (b / 16) 16 (by omega),
        Nat.mul_div_cancel (b % 16) (by norm_num)]
      omega
    rw [e1, e2]
    simp
  | case3 a =>
    intro h
    have ha : a < 256 := h a (by simp)
    have h1 : a / 4 < 64 := by omega
    have h2 : a % 4 * 16 < 64 := by omega
    simp only [b64encode, b64decode,
      charSextet_sextetChar _ h1, charSextet_sextetChar _ h2, if_pos rfl]
    have e1 : a / 4 * 4 + a % 4 * 16 / 16 = a := by
      rw [Nat.mul_div_cancel (a % 4) (by norm_num)]
      omega
    rw [e1]
    simp
  | case4 =>
    intro _
    simp [b64encode, b64decode]

/- ------------------------------------------------------------------ -/
/- Python error values raised by the library                           -/
/- ------------------------------------------------------------------ -/

/-- Python exceptions the embedded code can raise.  `valueError` covers
the spec's RemoteOperationError / UnsupportedBitDepth /
UnsupportedElementType / PayloadTooLarge taxonomy (the source raises
`ValueError` for all of them), and `ioError` covers TransportError. -/
inductive PyErr where
  | valueError (msg : String)
  | ioError (msg : String)
  | typeError (msg : String)
deriving DecidableEq, Repr

/- ------------------------------------------------------------------ -/
/- numpy dtypes and the bitpix conversion tables                       -/
/- ------------------------------------------------------------------ -/

/-- The numpy element types the source mentions. -/
inductive Dtype where
  | uint8 | int8 | uint16 | int16 | int32 | uint32 | int64 | uint64
  | float16 | float32 | float64
deriving DecidableEq, Repr

/-- Python `str(dtype)`, used in error messages. -/
def dtypeName : Dtype → String
  | .uint8 => "uint8"
  | .int8 => "int8"
  | .uint16 => "uint16"
  | .int16 => "int16"
  | .int32 => "int32"
  | .uint32 => "uint32"
  | .int64 => "int64"
  | .uint64 => "uint64"
  | .float16 => "float16"
  | .float32 => "float32"
  | .float64 => "float64"

/-- Bit width of a dtype. -/
def dtypeBits : Dtype → Nat
  | .uint8 => 8
  | .int8 => 8
  | .uint16 => 16
  | .int16 => 16
  | .int32 => 32
  | .uint32 => 32
  | .int64 => 64
  | .uint64 => 64
  | .float16 => 16
  | .float32 => 32
  | .float64 => 64

/-- Bytes per pixel of a dtype (the numpy itemsize). -/
def itemsize (d : Dtype) : Nat := dtypeBits d / 8

/-- Whether the dtype is a signed integer type (two's complement). -/
def dtypeSigned : Dtype → Bool
  | .int8 => true
  | .int16 => true
  | .int32 => true
  | .int64 => true
  | _ => false

/-- `_bp2np`: convert FITS bitpix to numpy datatype (the fixed table of
the source, in source order, raising ValueError otherwise). -/
def bp2np (bitpix : Int) : Except PyErr Dtype :=
  if bitpix = 8 then .ok .uint8
  else if bitpix = 16 then .ok .int16
  else if bitpix = 32 then .ok .int32
  else if bitpix = 64 then .ok .int64
  else if bitpix = -32 then .ok .float32
  else if bitpix = -64 then .ok .float64
  else if bitpix = -16 then .ok .uint16
  else .error (.valueError ("unsupported bitpix: " ++ toString bitpix))

/-- `_np2bp`: convert numpy datatype to FITS bitpix (source order,
raising ValueError for types with no code, e.g. uint64). -/
def np2bp (dtype : Dtype) : Except PyErr Int :=
  if dtype = .uint8 then .ok 8
  else if dtype = .int16 then .ok 16
  else if dtype = .int32 then .ok 32
  else if dtype = .int64 then .ok 64
  else if dtype = .float32 then .ok (-32)
  else if dtype = .float64 then .ok (-64)
  else if dtype = .uint16 then .ok (-16)
  else .error (.valueError ("unsupported dtype: " ++ dtypeName dtype))

/-- `_NP_TYPE_MAP`: the ordered widening table of the source.  On exact
scalar types `numpy.issubdtype` acts as equality, so the scan is an
ordered lookup by first component. -/
def npTypeMap : List (Dtype × Dtype) :=
  [(.uint8, .uint8), (.int8, .int16), (.uint16, .uint16), (.int16, .int16),
   (.int32, .int32), (.uint32, .int64), (.int64, .int64),
   (.float16, .float32), (.float32, .float32), (.float64, .float64)]

/- ------------------------------------------------------------------ -/
/- Value-level cast semantics for the conversions the library performs -/
/- ------------------------------------------------------------------ -/

/-- Numeric value of a bit pattern under a dtype: two's complement for
the signed integer types, the raw pattern otherwise. -/
def ofBits (d : Dtype) (v : Nat) : Int :=
  if dtypeSigned d ∧ 2 ^ (dtypeBits d - 1) ≤ v then
    (v : Int) - 2 ^ dtypeBits d
  else (v : Int)

/-- Bit pattern of an integer value under a dtype (reduction modulo
the type's width, which is numpy's cast behaviour between integer
types). -/
def toBits (d : Dtype) (x : Int) : Nat := (x % 2 ^ dtypeBits d).toNat

/-- Exact bit-level widening of an IEEE half-precision pattern to
single precision (the numpy `float16 -> float32` cast, which is exact). -/
def f16ToF32 (b : Nat) : Nat :=
  let s := b / 32768 % 2
  let e := b / 1024 % 32
  let f := b % 1024
  if e = 31 then s * 2 ^ 31 + 255 * 2 ^ 23 + f * 2 ^ 13
  else if e = 0 then
    if f = 0 then s * 2 ^ 31
    else
      let p := Nat.log2 f
      s * 2 ^ 31 + (103 + p) * 2 ^ 23 + (f - 2 ^ p) * 2 ^ (23 - p)
  else s * 2 ^ 31 + (e + 112) * 2 ^ 23 + f * 2 ^ 13

/-- numpy `ndarray.astype` on one element, as a map of bit patterns.
Integer-to-integer casts reduce the value modulo the target width
(numpy semantics for every such pair); `float16 -> float32` is the
exact IEEE widening; same-dtype casts are the identity.  These are the
only casts the verified properties exercise (the library itself only
casts along `_NP_TYPE_MAP` unless a caller passes an explicit dtype
override, which no claim does). -/
def astypeVal : Dtype → Dtype → Nat → Nat
  | .float16, .float32, v => f16ToF32 v
  | d1, d2, v => toBits d2 (ofBits d1 v)

/- ------------------------------------------------------------------ -/
/- numpy arrays and the codec                                          -/
/- ------------------------------------------------------------------ -/

/-- A 2-D numpy array: a dtype and the rows of element bit patterns.
The embedding keeps arrays C-contiguous by construction, so the
source's `ascontiguousarray` step is the identity here. -/
structure NpArray where
  dtype : Dtype
  rows : List (List Nat)
deriving DecidableEq, Repr

/-- numpy `shape[0]` for a 2-D array. -/
def npHeight (a : NpArray) : Nat := a.rows.length

/-- numpy `shape[1]` for a rectangular 2-D array. -/
def npWidth (a : NpArray) : Nat := (a.rows.headD []).length

/-- `ndarray.astype` on a whole 2-D array. -/
def npAstype (a : NpArray) (d : Dtype) : NpArray :=
  { dtype := d, rows := a.rows.map (fun r => r.map (astypeVal a.dtype d)) }

/-- `_cvt2np`: scan `_NP_TYPE_MAP` and cast to the first match's target
dtype; arrays of unlisted dtypes are returned unchanged. -/
def cvt2np (a : NpArray) : NpArray :=
  match npTypeMap.lookup a.dtype with
  | some t => npAstype a t
  | none => a

/-- The two retrieval modes of `js9Globals['retrieveAs']`. -/
inductive RetrieveAs where
  | array | base64
deriving DecidableEq, Repr

/-- The `data` field of a GetImageData reply: either a flat numeric
sequence or a base64 text. -/
inductive ImPayload where
  | flat (vals : List Nat)
  | b64 (text : List Char)
deriving DecidableEq, Repr

/-- A GetImageData reply object (the fields `_im2np` reads). -/
structure ImageData where
  width : Nat
  height : Nat
  bitpix : Int
  data : ImPayload
deriving DecidableEq, Repr

/-- `_im2np`: convert a GetImageData object to a 2-D numpy array.
In `array` mode the first `h*w` entries of the flat sequence are
reshaped; numpy `reshape` raises unless exactly `h*w` elements are
present.  In `base64` mode the text is decoded, truncated to `dlen`
bytes and reinterpreted; numpy `frombuffer` raises unless the byte
count is a multiple of the itemsize, and `reshape` then checks the
element count.  A payload whose shape does not match the global mode
raises a TypeError in Python (string sliced as an array, or a list
without `.encode()`). -/
def im2np (mode : RetrieveAs) (im : ImageData) : Except PyErr (List (List Nat)) :=
  let w := im.width
  let h := im.height
  match bp2np im.bitpix with
  | .error e => .error e
  | .ok _ =>
    let dlen := h * w * im.bitpix.natAbs / 8
    match mode, im.data with
    | .array, .flat vals =>
        let s := vals.take (h * w)
        if s.length = h * w then .ok (chunkList w s)
        else .error (.valueError "cannot reshape array")
    | .base64, .b64 text =>
        let s := (b64decode text).take dlen
        let isize := im.bitpix.natAbs / 8
        if s.length % isize = 0 then
          let pix := pixelsOfBytes isize s
          if pix.length = h * w then .ok (chunkList w pix)
          else .error (.valueError "cannot reshape array")
        else .error (.valueError "buffer size must be a multiple of element size")
    | _, _ => .error (.typeError "data does not match retrieveAs mode")

/-- The object `SetNumpy` sends to `JS9.Load` (its `dmin`/`dmax`
display-scaling hints carry no information about the pixels beyond
their extrema and are not read back by any decoder, so they are not
tracked here). -/
structure LoadPayload where
  naxis : Nat
  naxis1 : Nat
  naxis2 : Nat
  bitpix : Int
  encoding : String
  image : List Char
  filename : Option String
deriving DecidableEq, Repr

/-- `JS9.SetNumpy`, up to the `Load` call: cast the array (explicit
dtype override if given and different, else the `_cvt2np` widening),
compute bitpix via `_np2bp` (raising on unsupported dtypes such as
uint64), then base64-encode the row-major native-byte-order buffer. -/
def setNumpy (arr : NpArray) (filename : Option String)
    (dtype : Option Dtype) : Except PyErr LoadPayload :=
  let narr :=
    match dtype with
    | some dt => if dt ≠ arr.dtype then npAstype arr dt else cvt2np arr
    | none => cvt2np arr
  match np2bp narr.dtype with
  | .error e => .error e
  | .ok bp =>
      .ok { naxis := 2, naxis1 := npWidth narr, naxis2 := npHeight narr,
            bitpix := bp, encoding := "base64",
            image := b64encode
              (bytesOfPixels (itemsize narr.dtype) narr.rows.flatten),
            filename := filename }

/-- Modelled from the spec: the JS9 helper process that stores a loaded
image and serves GetImageData is not part of this repository.  Per the
spec's round-trip fixture, retrieving a previously loaded payload
returns an ImageData whose `data` is the base64 text itself in base64
mode, and in array mode the flat pixel list obtained by base64-decoding
the `image` field and reinterpreting it as the declared element type. -/
def retrieveFixture (mode : RetrieveAs) (p : LoadPayload) : ImageData :=
  { width := p.naxis1, height := p.naxis2, bitpix := p.bitpix,
    data :=
      match mode with
      | .base64 => .b64 p.image
      | .array => .flat (pixelsOfBytes (p.bitpix.natAbs / 8) (b64decode p.image)) }

/-- The value `GetImageData` hands to `GetNumpy`/`GetFITS`: either a
(possibly empty) string or an image-data object. -/
inductive ImResp where
  | strr (s : String)
  | imd (im : ImageData)
deriving DecidableEq, Repr

/-- `JS9.GetNumpy`: an empty string from GetImageData (image too large
for the Python transport) raises ValueError; any other string reaches
`_im2np`, which raises TypeError when subscripted with a field name;
an image-data object is decoded by `_im2np`. -/
def getNumpy (mode : RetrieveAs) (resp : ImResp) :
    Except PyErr (List (List Nat)) :=
  match resp with
  | .strr s =>
      if s = "" then
        .error (.valueError
          "GetImageData failed: image too large for Python transport?")
      else .error (.typeError "string indices must be integers")
  | .imd im => im2np mode im

/-- `JS9.GetFITS`: same retrieval as `GetNumpy`, then the decoded array
is wrapped as the data of the single primary HDU of a new HDU list. -/
def getFITS (mode : RetrieveAs) (resp : ImResp) :
    Except PyErr (List (List (List Nat))) :=
  match resp with
  | .strr s =>
      if s = "" then
        .error (.valueError
          "GetImageData failed: image too large for Python transport?")
      else .error (.typeError "string indices must be integers")
  | .imd im =>
      match im2np mode im with
      | .error e => .error e
      | .ok arr => .ok [arr]

/- ------------------------------------------------------------------ -/
/- Transport: JS9.send, host normalization, constructor probe loop     -/
/- ------------------------------------------------------------------ -/

/-- A decoded reply: either the JSON-decoded value (of the abstract
JSON type `α`) or, when JSON decoding fails, the trimmed raw text. -/
inductive Reply (α : Type) where
  | json (v : α)
  | str (s : String)
deriving DecidableEq

/-- The error-marker substring `JS9.send` looks for. -/
def errorMarker : List Char := "ERROR:".toList

/-- The html branch of `JS9.send` after the command object is posted.
`postResult` is the outcome of `requests.post` (connection error or
response text) and `parse` models `json.loads` (an external library:
it returns the decoded value or fails).  A connection failure is
re-raised as IOError naming the host; a response containing `ERROR:`
raises ValueError with the full text; a response that is not JSON is
returned as the trimmed raw string. -/
def sendHtml (α : Type) (host : String) (postResult : Except String String)
    (parse : String → Option α) : Except PyErr (Reply α) :=
  match postResult with
  | .error e => .error (.ioError ("Cannot connect to " ++ host ++ ": " ++ e))
  | .ok urtn =>
      if containsSub errorMarker urtn.toList then .error (.valueError urtn)
      else
        match parse urtn with
        | some v => .ok (.json v)
        | none => .ok (.str (pyStrip urtn))

/-- The socketio branch of `JS9.send` for a string reply: a non-empty
string containing `ERROR:` raises ValueError, anything else is
returned unchanged. -/
def sendSockio (sockioResult : String) : Except PyErr String :=
  if sockioResult ≠ "" ∧ containsSub errorMarker sockioResult.toList then
    .error (.valueError sockioResult)
  else .ok sockioResult

/-- Values stored in a Python command dictionary. -/
inductive PVal where
  | pStr (s : String)
  | pBool (b : Bool)
  | pInt (n : Int)
  | pList (l : List PVal)

/-- A Python dictionary with string keys, as an association list in
insertion order. -/
def Dict : Type := List (String × PVal)

/-- Python `d[k] = v`: overwrite the existing binding or append. -/
def setKey : List (String × PVal) → String → PVal → List (String × PVal)
  | [], k, v => [(k, v)]
  | (k0, v0) :: rest, k, v =>
      if k0 = k then (k, v) :: rest else (k0, v0) :: setKey rest k v

/-- Python `d.get(k)`: first binding of the key, if any. -/
def getKey : List (String × PVal) → String → Option PVal
  | [], _ => none
  | (k0, v0) :: rest, k => if k0 = k then some v0 else getKey rest k

/-- The per-instance state of a JS9 client that `send` reads. -/
structure Client where
  id : String
  multi : Bool
  pageid : Option PVal
  host : String

/-- The transport event that resolves one `send` call: the html POST's
outcome, or the socketio callback's string result. -/
inductive TransportEvent where
  | htmlPost (r : Except String String)
  | sockio (r : String)

/-- Lines 332-337 of `JS9.send`: the command dictionary is updated in
place before the transport branch runs (a `None` obj is replaced by a
fresh empty dict first). -/
def sendPrepare (c : Client) (obj : Dict) : Dict :=
  let o1 := setKey obj "id" (.pStr c.id)
  let o2 := setKey o1 "multi" (.pBool c.multi)
  match c.pageid with
  | some p => setKey o2 "pageid" p
  | none => o2

/-- `JS9.send` with the caller's dictionary threaded explicitly: the
returned first component is the state of the caller's dictionary after
the call (Python mutates it in place), the second is the reply or the
raised error.  The dictionary is prepared before the transport branch,
so its final state does not depend on the transport outcome. -/
def sendFull (α : Type) (c : Client) (obj : Option Dict)
    (ev : TransportEvent) (parse : String → Option α) :
    Dict × Except PyErr (Reply α) :=
  let o := obj.getD []
  let o1 := sendPrepare c o
  (o1,
    match ev with
    | .htmlPost r => sendHtml α c.host r parse
    | .sockio r =>
        match sendSockio r with
        | .error e => .error e
        | .ok s => .ok (.str s))

/-- The host normalization of `JS9.__init__`: append `:2718` when the
last `:` does not come after the first `/` (no port present), and
prepend `http://` when no `/` occurs (no scheme present). -/
def normalizeHost (host : String) : String :=
  let l := host.toList
  let c := pyRfind ':' l
  let s := pyFind '/' l
  let l1 := if c ≤ s then l ++ ":2718".toList else l
  let l2 := if s < 0 then "http://".toList ++ l1 else l1
  String.mk l2

/-- The substring the constructor's retry loop looks for in a probe
failure to recognize the no-instance-with-this-id error. -/
def instanceMarker : List Char := "JS9 instance(s) found with id".toList

/-- Outcome of one `_alive` probe: success, or a raised exception whose
string form is `msg`. -/
inductive ProbeRes where
  | ok
  | exn (msg : String)

/-- What the constructor's probe loop produced: how many probes ran and
which messages it printed.  Construction itself never raises past the
loop (all probe exceptions are caught), which the `Except` return type
of `constructLoop` makes explicit. -/
structure CtorOutcome where
  attempts : Nat
  printed : List String
deriving DecidableEq, Repr

/-- The retry loop of `JS9.__init__`, fuel-driven: each iteration calls
the probe; on success it breaks; on an exception whose text contains
the instance marker it prints the message and breaks; on any other
exception it sleeps and retries until `maxtries` probes have failed. -/
def constructLoopAux (probe : Nat → ProbeRes) :
    Nat → Nat → List String → Except String CtorOutcome
  | 0, tries, printed => .ok ⟨tries, printed⟩
  | fuel + 1, tries, printed =>
      match probe tries with
      | .ok => .ok ⟨tries + 1, printed⟩
      | .exn e =>
          if containsSub instanceMarker e.toList then
            .ok ⟨tries + 1, printed ++ [e]⟩
          else constructLoopAux probe fuel (tries + 1) printed

/-- The constructor's probe loop, entered with `tries = 0` and at most
`maxtries` probes. -/
def constructLoop (probe : Nat → ProbeRes) (maxtries : Nat) :
    Except String CtorOutcome :=
  constructLoopAux probe maxtries 0 []

/- ------------------------------------------------------------------ -/
/- Supporting lemmas about the conversion tables                       -/
/- ------------------------------------------------------------------ -/

/-- The element types the wire format supports (those `_np2bp` accepts). -/
def supportedDtypes : List Dtype :=
  [.uint8, .int16, .int32, .int64, .uint16, .float32, .float64]

/-- The bitpix code `_np2bp` assigns to each supported dtype. -/
def bpOf : Dtype → Int
  | .uint8 => 8
  | .int16 => 16
  | .int32 => 32
  | .int64 => 64
  | .uint16 => -16
  | .float32 => -32
  | .float64 => -64
  | _ => 0

theorem supported_tables (d : Dtype) (hd : d ∈ supportedDtypes) :
    npTypeMap.lookup d = some d ∧ np2bp d = .ok (bpOf d) ∧
    bp2np (bpOf d) = .ok d ∧ (bpOf d).natAbs = dtypeBits d ∧
    (bpOf d).natAbs / 8 = itemsize d ∧ 0 < itemsize d ∧
    256 ^ itemsize d = 2 ^ dtypeBits d := by
  simp only [supportedDtypes, List.mem_cons, List.not_mem_nil, or_false] at hd
  rcases hd with rfl | rfl | rfl | rfl | rfl | rfl | rfl <;>
    exact ⟨rfl, rfl, rfl, rfl, rfl, by decide, by decide⟩

theorem mulBitsDiv8 (n k m : Nat) (hm : m = k * 8) : n * m / 8 = k * n := by
  subst hm
  have e : n * (k * 8) = k * n * 8 := by ring
  rw [e, Nat.mul_div_cancel _ (by norm_num)]

theorem dlen_eq (d : Dtype) (hd : d ∈ supportedDtypes) (n : Nat) :
    n * (bpOf d).natAbs / 8 = itemsize d * n := by
  simp only [supportedDtypes, List.mem_cons, List.not_mem_nil, or_false] at hd
  rcases hd with rfl | rfl | rfl | rfl | rfl | rfl | rfl
  · exact mulBitsDiv8 n 1 8 rfl
  · exact mulBitsDiv8 n 2 16 rfl
  · exact mulBitsDiv8 n 4 32 rfl
  · exact mulBitsDiv8 n 8 64 rfl
  · exact mulBitsDiv8 n 2 16 rfl
  · exact mulBitsDiv8 n 4 32 rfl
  · exact mulBitsDiv8 n 8 64 rfl

theorem toBits_ofBits (d : Dtype) (v : Nat) (h : v < 2 ^ dtypeBits d) :
    toBits d (ofBits d v) = v := by
  cases d <;>
    simp only [toBits, ofBits, dtypeSigned, dtypeBits] at h ⊢ <;>
    norm_num at h ⊢ <;>
    omega

theorem astypeVal_id (d : Dtype) (v : Nat) (h : v < 2 ^ dtypeBits d) :
    astypeVal d d v = v := by
  cases d <;> exact toBits_ofBits _ v h

theorem cvt2np_id (d : Dtype) (hd : d ∈ supportedDtypes)
    (rows : List (List Nat))
    (hb : ∀ r ∈ rows, ∀ v ∈ r, v < 2 ^ dtypeBits d) :
    cvt2np ⟨d, rows⟩ = ⟨d, rows⟩ := by
  obtain ⟨hl, -⟩ := supported_tables d hd
  unfold cvt2np
  rw [hl]
  unfold npAstype
  simp only [NpArray.mk.injEq, true_and]
  calc (⟨d, rows⟩ : NpArray).rows.map (fun r => r.map (astypeVal d d))
      = rows.map id := by
        apply List.map_congr_left
        intro r hr
        calc r.map (astypeVal d d) = r.map id := by
              apply List.map_congr_left
              intro v hv
              exact astypeVal_id d v (hb r hr v hv)
          _ = r := List.map_id r
    _ = rows := List.map_id rows

theorem setNumpy_supported (d : Dtype) (hd : d ∈ supportedDtypes)
    (rows : List (List Nat))
    (hb : ∀ r ∈ rows, ∀ v ∈ r, v < 2 ^ dtypeBits d) :
    setNumpy ⟨d, rows⟩ none none = .ok
      { naxis := 2, naxis1 := npWidth ⟨d, rows⟩, naxis2 := rows.length,
        bitpix := bpOf d, encoding := "base64",
        image := b64encode (bytesOfPixels (itemsize d) rows.flatten),
        filename := none } := by
  obtain ⟨-, hnp, -⟩ := supported_tables d hd
  have hcv := cvt2np_id d hd rows hb
  simp only [setNumpy, hcv, hnp, npHeight]

/-- C1: for every 2-D array of a supported element type and both
retrieval modes, encoding as `SetNumpy` does and decoding the retrieved
ImageData with `_im2np` reproduces the original array
element-for-element (bit patterns are preserved exactly, which is exact
numeric equality for the integer types and representational equality
for the float types). -/
theorem c1_setNumpy_im2np_roundtrip
    (d : Dtype) (mode : RetrieveAs) (rows : List (List Nat)) (h w : Nat)
    (hd : d ∈ supportedDtypes)
    (hh : rows.length = h) (hw : ∀ r ∈ rows, r.length = w)
    (h0 : 0 < h) (w0 : 0 < w)
    (hb : ∀ r ∈ rows, ∀ v ∈ r, v < 2 ^ dtypeBits d) :
    ∃ p, setNumpy ⟨d, rows⟩ none none = .ok p ∧
      im2np mode (retrieveFixture mode p) = .ok rows := by
  obtain ⟨hlk, hnp, hbp, hnatabs, hisize, hiz, hpow⟩ := supported_tables d hd
  refine ⟨_, setNumpy_supported d hd rows hb, ?_⟩
  have hflatlen : rows.flatten.length = h * w := by
    rw [flatten_length_rect w rows hw, hh]
  have hBlen : (bytesOfPixels (itemsize d) rows.flatten).length
      = itemsize d * (h * w) := by
    rw [bytesOfPixels_length, hflatlen]
  have hdec : b64decode (b64encode (bytesOfPixels (itemsize d) rows.flatten))
      = bytesOfPixels (itemsize d) rows.flatten :=
    b64decode_b64encode _ (bytesOfPixels_lt _ _)
  have hpix : pixelsOfBytes (itemsize d) (bytesOfPixels (itemsize d) rows.flatten)
      = rows.flatten := by
    apply pixelsOfBytes_bytesOfPixels (itemsize d) hiz
    intro p hp
    rw [hpow]
    obtain ⟨r, hr, hpr⟩ := List.mem_flatten.mp hp
    exact hb r hr p hpr
  have hWidth : npWidth ⟨d, rows⟩ = w := by
    cases rows with
    | nil => simp at hh; omega
    | cons r t => exact hw r (by simp)
  have hchunk : chunkList w rows.flatten = rows := chunkList_flatten w w0 rows hw
  have hdlen : h * w * (bpOf d).natAbs / 8 = itemsize d * (h * w) :=
    dlen_eq d hd (h * w)
  cases mode with
  | base64 =>
    simp only [retrieveFixture, im2np, hbp, hWidth, hh, hdec, hdlen, hisize]
    rw [show (bytesOfPixels (itemsize d) rows.flatten).take
          (itemsize d * (h * w))
        = bytesOfPixels (itemsize d) rows.flatten by
      rw [← hBlen]; exact List.take_length _]
    rw [hBlen]
    simp only [Nat.mul_mod_right, if_pos rfl, hpix, hflatlen, if_pos rfl,
      hchunk, if_true]
  | array =>
    simp only [retrieveFixture, im2np, hbp, hWidth, hh, hdec, hisize, hpix]
    rw [show rows.flatten.take (h * w) = rows.flatten by
      rw [← hflatlen]; exact List.take_length _]
    simp only [hflatlen, if_pos rfl, hchunk, if_true]

theorem c1_setNumpy_im2np_roundtrip_witness :
    ∃ p, setNumpy ⟨.int16, [[1, 2], [3, 65535]]⟩ none none = .ok p ∧
      im2np .base64 (retrieveFixture .base64 p) = .ok [[1, 2], [3, 65535]] :=
  c1_setNumpy_im2np_roundtrip .int16 .base64 [[1, 2], [3, 65535]] 2 2
    (by decide) (by decide) (by decide) (by decide) (by decide) (by decide)

/-- C3: `_bp2np` realizes exactly the fixed bitpix table and raises a
ValueError naming the bitpix for every other value. -/
theorem c3_bp2np_table :
    bp2np 8 = .ok .uint8 ∧ bp2np 16 = .ok .int16 ∧ bp2np 32 = .ok .int32 ∧
    bp2np 64 = .ok .int64 ∧ bp2np (-16) = .ok .uint16 ∧
    bp2np (-32) = .ok .float32 ∧ bp2np (-64) = .ok .float64 ∧
    ∀ bp : Int, bp ∉ ([8, 16, 32, 64, -16, -32, -64] : List Int) →
      bp2np bp = .error (.valueError ("unsupported bitpix: " ++ toString bp)) := by
  refine ⟨rfl, rfl, rfl, rfl, rfl, rfl, rfl, ?_⟩
  intro bp hbp
  simp only [List.mem_cons, List.not_mem_nil, or_false, not_or] at hbp
  obtain ⟨h1, h2, h3, h4, h5, h6, h7⟩ := hbp
  simp only [bp2np, if_neg h1, if_neg h2, if_neg h3, if_neg h4, if_neg h5,
    if_neg h6, if_neg h7]

theorem c3_bp2np_table_witness :
    bp2np 7 = .error (.valueError ("unsupported bitpix: " ++ toString (7 : Int))) :=
  c3_bp2np_table.2.2.2.2.2.2.2 7 (by decide)

/-- C8: the empty-string sentinel from GetImageData (image too large)
makes both `GetNumpy` and `GetFITS` raise instead of decoding. -/
theorem c8_too_large_sentinel (mode : RetrieveAs) :
    getNumpy mode (.strr "") = .error (.valueError
      "GetImageData failed: image too large for Python transport?") ∧
    getFITS mode (.strr "") = .error (.valueError
      "GetImageData failed: image too large for Python transport?") :=
  ⟨rfl, rfl⟩

/-- C7: a flat `array`-mode payload shorter than `width*height` makes
`_im2np` (and hence `GetNumpy`) fail; no truncated or padded array is
ever returned. -/
theorem c7_short_flat_fails (im : ImageData) (vals : List Nat)
    (hdata : im.data = .flat vals)
    (hlen : vals.length < im.width * im.height) :
    ∃ e, im2np .array im = .error e ∧
      getNumpy .array (.imd im) = .error e := by
  have hg : getNumpy .array (.imd im) = im2np .array im := rfl
  have hcomm : im.width * im.height = im.height * im.width := Nat.mul_comm _ _
  cases him : bp2np im.bitpix with
  | error e =>
    exact ⟨e, by simp only [im2np, him], by rw [hg]; simp only [im2np, him]⟩
  | ok dt =>
    refine ⟨.valueError "cannot reshape array", ?_, ?_⟩ <;>
      [skip; rw [hg]] <;>
      (simp only [im2np, him, hdata]
       rw [if_neg ?_]
       rw [List.length_take]
       omega)

theorem c7_short_flat_fails_witness :
    ∃ e, im2np .array ⟨2, 2, 16, .flat [1, 2, 3]⟩ = .error e ∧
      getNumpy .array (.imd ⟨2, 2, 16, .flat [1, 2, 3]⟩) = .error e :=
  c7_short_flat_fails ⟨2, 2, 16, .flat [1, 2, 3]⟩ [1, 2, 3] rfl (by decide)

theorem marker_hay_ne_empty (s : String)
    (h : containsSub errorMarker s.toList = true) : s ≠ "" := by
  intro he
  subst he
  revert h
  decide

/-- C2: a response text containing the substring `ERROR:` makes
`JS9.send` raise a ValueError carrying the full text, on both the html
and the socketio transport. -/
theorem c2_error_marker (α : Type) (host urtn : String)
    (parse : String → Option α)
    (herr : containsSub errorMarker urtn.toList = true) :
    sendHtml α host (.ok urtn) parse = .error (.valueError urtn) ∧
    sendSockio urtn = .error (.valueError urtn) := by
  constructor
  · simp only [sendHtml, if_pos herr]
  · have hne := marker_hay_ne_empty urtn herr
    simp only [sendSockio, if_pos (And.intro hne herr)]

theorem c2_error_marker_witness :
    sendHtml Unit "http://localhost:2718" (.ok "ERROR: bad id")
        (fun _ => none) = .error (.valueError "ERROR: bad id") ∧
    sendSockio "ERROR: bad id" = .error (.valueError "ERROR: bad id") :=
  c2_error_marker Unit "http://localhost:2718" "ERROR: bad id"
    (fun _ => none) (by decide)

/-- C5 counterexample: the response text `ERROR: not json` is not valid
JSON, yet `send` raises instead of returning the trimmed text, so the
claim's universal quantification over all non-JSON bodies fails. -/
theorem c5_nonjson_counterexample :
    sendHtml Unit "http://localhost:2718" (.ok "ERROR: not json")
      (fun _ => none) = .error (.valueError "ERROR: not json") := rfl

/-- C5 (amended): every response body that does not contain the error
marker and is not valid JSON is returned as the trimmed raw text; JSON
decoding failure is not an error condition. -/
theorem c5_nonjson_returns_text (α : Type) (host urtn : String)
    (parse : String → Option α)
    (hne : containsSub errorMarker urtn.toList = false)
    (hp : parse urtn = none) :
    sendHtml α host (.ok urtn) parse = .ok (.str (pyStrip urtn)) := by
  have hne' : ¬ (containsSub errorMarker urtn.toList = true) := by
    rw [hne]
    decide
  simp only [sendHtml, if_neg hne', hp]

theorem c5_nonjson_returns_text_witness :
    sendHtml Unit "http://localhost:2718" (.ok "OK") (fun _ => none)
      = .ok (.str (pyStrip "OK")) ∧ pyStrip "OK" = "OK" :=
  ⟨c5_nonjson_returns_text Unit "http://localhost:2718" "OK"
    (fun _ => none) (by decide) rfl, by decide⟩

/-- C6: the constructor's host normalization appends the default port
2718 and prefixes `http://` when absent, and leaves a full URL with an
explicit port unchanged. -/
theorem c6_host_normalization :
    normalizeHost "example.org" = "http://example.org:2718" ∧
    normalizeHost "http://example.org:9000" = "http://example.org:9000" :=
  ⟨rfl, rfl⟩

/-- C4: without a dtype override, `SetNumpy` widens int8 to int16
(bitpix 16, two bytes per pixel on the wire), uint32 to int64
(bitpix 64), float16 to float32 (bitpix -32), passes the supported
dtypes through unchanged with their own bitpix, and raises for uint64
instead of truncating. -/
theorem c4_widening (rows : List (List Nat)) (h w : Nat)
    (hh : rows.length = h) (hw : ∀ r ∈ rows, r.length = w)
    (h0 : 0 < h) (w0 : 0 < w) :
    (∃ p, setNumpy ⟨.int8, rows⟩ none none = .ok p ∧ p.bitpix = 16 ∧
       (b64decode p.image).length = 2 * (w * h)) ∧
    (∃ p, setNumpy ⟨.uint32, rows⟩ none none = .ok p ∧ p.bitpix = 64) ∧
    (∃ p, setNumpy ⟨.float16, rows⟩ none none = .ok p ∧ p.bitpix = -32) ∧
    (∀ d ∈ supportedDtypes, (∀ r ∈ rows, ∀ v ∈ r, v < 2 ^ dtypeBits d) →
       ∃ p, setNumpy ⟨d, rows⟩ none none = .ok p ∧ np2bp d = .ok p.bitpix ∧
         b64decode p.image = bytesOfPixels (itemsize d) rows.flatten) ∧
    setNumpy ⟨.uint64, rows⟩ none none =
      .error (.valueError "unsupported dtype: uint64") := by
  refine ⟨?_, ?_, ?_, ?_, rfl⟩
  · refine ⟨{ naxis := 2, naxis1 := npWidth (cvt2np ⟨Dtype.int8, rows⟩),
              naxis2 := npHeight (cvt2np ⟨Dtype.int8, rows⟩), bitpix := 16,
              encoding := "base64",
              image := b64encode (bytesOfPixels
                (itemsize (cvt2np ⟨Dtype.int8, rows⟩).dtype)
                (cvt2np ⟨Dtype.int8, rows⟩).rows.flatten),
              filename := none }, rfl, rfl, ?_⟩
    show (b64decode (b64encode (bytesOfPixels
        (itemsize (cvt2np ⟨Dtype.int8, rows⟩).dtype)
        (cvt2np ⟨Dtype.int8, rows⟩).rows.flatten))).length = 2 * (w * h)
    have hc : cvt2np ⟨Dtype.int8, rows⟩ = npAstype ⟨Dtype.int8, rows⟩ .int16 :=
      rfl
    rw [hc]
    have hmap : ∀ r ∈ (npAstype ⟨Dtype.int8, rows⟩ .int16).rows,
        r.length = w := by
      intro r hr
      simp only [npAstype, List.mem_map] at hr
      obtain ⟨r0, hr0, rfl⟩ := hr
      simp [hw r0 hr0]
    have hffl : (npAstype ⟨Dtype.int8, rows⟩ .int16).rows.flatten.length
        = h * w := by
      rw [flatten_length_rect w _ hmap]
      simp only [npAstype, List.length_map]
      rw [hh]
    rw [b64decode_b64encode _ (bytesOfPixels_lt _ _), bytesOfPixels_length,
      hffl]
    have hit : itemsize (npAstype ⟨Dtype.int8, rows⟩ .int16).dtype = 2 := by
      simp [npAstype, itemsize, dtypeBits]
    rw [hit]
    ring
  · exact ⟨{ naxis := 2, naxis1 := npWidth (cvt2np ⟨Dtype.uint32, rows⟩),
             naxis2 := npHeight (cvt2np ⟨Dtype.uint32, rows⟩), bitpix := 64,
             encoding := "base64",
             image := b64encode (bytesOfPixels
               (itemsize (cvt2np ⟨Dtype.uint32, rows⟩).dtype)
               (cvt2np ⟨Dtype.uint32, rows⟩).rows.flatten),
             filename := none }, rfl, rfl⟩
  · exact ⟨{ naxis := 2, naxis1 := npWidth (cvt2np ⟨Dtype.float16, rows⟩),
             naxis2 := npHeight (cvt2np ⟨Dtype.float16, rows⟩), bitpix := -32,
             encoding := "base64",
             image := b64encode (bytesOfPixels
               (itemsize (cvt2np ⟨Dtype.float16, rows⟩).dtype)
               (cvt2np ⟨Dtype.float16, rows⟩).rows.flatten),
             filename := none }, rfl, rfl⟩
  · intro d hd hb
    obtain ⟨-, hnp, -⟩ := supported_tables d hd
    exact ⟨_, setNumpy_supported d hd rows hb, hnp,
      b64decode_b64encode _ (bytesOfPixels_lt _ _)⟩

theorem c4_widening_witness :
    ((∃ p, setNumpy ⟨.int8, [[5]]⟩ none none = .ok p ∧ p.bitpix = 16 ∧
        (b64decode p.image).length = 2 * (1 * 1)) ∧
     (∃ p, setNumpy ⟨.uint32, [[5]]⟩ none none = .ok p ∧ p.bitpix = 64) ∧
     (∃ p, setNumpy ⟨.float16, [[5]]⟩ none none = .ok p ∧ p.bitpix = -32) ∧
     (∀ d ∈ supportedDtypes,
        (∀ r ∈ [[5]], ∀ v ∈ r, v < 2 ^ dtypeBits d) →
        ∃ p, setNumpy ⟨d, [[5]]⟩ none none = .ok p ∧
          np2bp d = .ok p.bitpix ∧
          b64decode p.image = bytesOfPixels (itemsize d)
            ([[5]] : List (List Nat)).flatten) ∧
     setNumpy ⟨.uint64, [[5]]⟩ none none =
       .error (.valueError "unsupported dtype: uint64")) :=
  c4_widening [[5]] 1 1 (by decide) (by decide) (by decide) (by decide)

/-- C9 counterexample: when every probe fails with the
no-instance-with-this-id message, the constructor's loop prints the
message and breaks after the first probe, and construction completes
normally (result `.ok`); it does not propagate the failure as an
error, contrary to the claim. -/
theorem c9_probe_counterexample :
    constructLoop
        (fun _ => .exn "ERROR: no JS9 instance(s) found with id: JS9") 5
      = .ok ⟨1, ["ERROR: no JS9 instance(s) found with id: JS9"]⟩ := rfl

theorem constructLoop_exn_step (probe : Nat → ProbeRes) (fuel tries : Nat)
    (printed : List String) (e : String) (hp : probe tries = .exn e)
    (hni : containsSub instanceMarker e.toList = false) :
    constructLoopAux probe (fuel + 1) tries printed
      = constructLoopAux probe fuel (tries + 1) printed := by
  simp only [constructLoopAux, hp]
  rw [if_neg (by rw [hni]; decide)]

/-- C9 (amended): constructing against an unreachable host with retry
count 2 swallows both probe failures and completes (two probes run, no
error escapes); the first subsequent `send` over the html transport
raises an IOError naming the host; and a probe failure reporting no
JS9 instance with the given id makes the loop stop after that first
probe, printing the message, with construction still completing
without raising. -/
theorem c9_probe_retry_amended (host emsg probeErr inst : String)
    (α : Type) (parse : String → Option α)
    (hni : containsSub instanceMarker probeErr.toList = false)
    (hyes : containsSub instanceMarker inst.toList = true) :
    constructLoop (fun _ => .exn probeErr) 2 = .ok ⟨2, []⟩ ∧
    sendHtml α host (.error emsg) parse
      = .error (.ioError ("Cannot connect to " ++ host ++ ": " ++ emsg)) ∧
    constructLoop (fun _ => .exn inst) 2 = .ok ⟨1, [inst]⟩ := by
  refine ⟨?_, rfl, ?_⟩
  · calc constructLoop (fun _ => .exn probeErr) 2
        = constructLoopAux (fun _ => .exn probeErr) (1 + 1) 0 [] := rfl
      _ = constructLoopAux (fun _ => .exn probeErr) (0 + 1) 1 [] :=
        constructLoop_exn_step _ 1 0 [] probeErr rfl hni
      _ = constructLoopAux (fun _ => .exn probeErr) 0 2 [] :=
        constructLoop_exn_step _ 0 1 [] probeErr rfl hni
      _ = .ok ⟨2, []⟩ := rfl
  · have h1 : constructLoop (fun _ => .exn inst) 2
        = constructLoopAux (fun _ => .exn inst) (1 + 1) 0 [] := rfl
    rw [h1]
    simp only [constructLoopAux]
    rw [if_pos hyes]
    simp

theorem c9_probe_retry_amended_witness :
    constructLoop (fun _ => .exn "connection refused") 2 = .ok ⟨2, []⟩ ∧
    sendHtml Unit "http://nowhere:2718" (.error "connection refused")
        (fun _ => none)
      = .error (.ioError ("Cannot connect to " ++ "http://nowhere:2718"
          ++ ": " ++ "connection refused")) ∧
    constructLoop
        (fun _ => .exn "ERROR: no JS9 instance(s) found with id: pix") 2
      = .ok ⟨1, ["ERROR: no JS9 instance(s) found with id: pix"]⟩ :=
  c9_probe_retry_amended "http://nowhere:2718" "connection refused"
    "connection refused" "ERROR: no JS9 instance(s) found with id: pix"
    Unit (fun _ => none) (by decide) (by decide)

theorem getKey_setKey_same (d : List (String × PVal)) (k : String) (v : PVal) :
    getKey (setKey d k v) k = some v := by
  induction d with
  | nil => simp [setKey, getKey]
  | cons kv rest ih =>
    obtain ⟨k0, v0⟩ := kv
    by_cases hk : k0 = k
    · subst hk
      simp [setKey, getKey]
    · simp [setKey, getKey, hk, ih]

theorem getKey_setKey_other (d : List (String × PVal)) (k k' : String)
    (v : PVal) (hkk : k ≠ k') :
    getKey (setKey d k v) k' = getKey d k' := by
  induction d with
  | nil => simp [setKey, getKey, hkk]
  | cons kv rest ih =>
    obtain ⟨k0, v0⟩ := kv
    by_cases hk : k0 = k
    · subst hk
      simp [setKey, getKey, hkk]
    · by_cases hk' : k0 = k'
      · subst hk'
        simp [setKey, getKey, hk]
      · simp [setKey, getKey, hk, hk', ih]

/-- C10: `JS9.send` updates the caller's command dictionary before the
transport branch runs and regardless of the transport outcome (even a
raising call): afterwards `id` holds the client's display identifier,
`multi` its multi flag, and `pageid` is set exactly when the client's
pageid is not None. -/
theorem c10_send_mutates_obj (c : Client) (obj : Dict)
    (ev : TransportEvent) (α : Type) (parse : String → Option α) :
    getKey (sendFull α c (some obj) ev parse).1 "id" = some (.pStr c.id) ∧
    getKey (sendFull α c (some obj) ev parse).1 "multi"
      = some (.pBool c.multi) ∧
    getKey (sendFull α c (some obj) ev parse).1 "pageid"
      = (match c.pageid with
         | some p => some p
         | none => getKey obj "pageid") := by
  have h1 : (sendFull α c (some obj) ev parse).1 = sendPrepare c obj := rfl
  rw [h1]
  unfold sendPrepare
  cases hp : c.pageid with
  | none =>
    refine ⟨?_, ?_, ?_⟩
    · rw [getKey_setKey_other _ "multi" "id" _ (by decide),
        getKey_setKey_same]
    · rw [getKey_setKey_same]
    · rw [getKey_setKey_other _ "multi" "pageid" _ (by decide),
        getKey_setKey_other _ "id" "pageid" _ (by decide)]
  | some p =>
    refine ⟨?_, ?_, ?_⟩
    · rw [getKey_setKey_other _ "pageid" "id" _ (by decide),
        getKey_setKey_other _ "multi" "id" _ (by decide),
        getKey_setKey_same]
    · rw [getKey_setKey_other _ "pageid" "multi" _ (by decide),
        getKey_setKey_same]
    · rw [getKey_setKey_same]
